import Mathlib

/-!
Shallow embedding of the suite-results generator
(`scripts/generate-results.ts` of nope-net/suites).

The per-case scoring logic, the record of named boolean checks, the
per-case score, the suite aggregation, and the bounded-concurrency task
runner are translated here from the TypeScript source.  JavaScript
objects used as string-keyed check maps are modelled as insertion-ordered
association lists over an inductive key type `CheckKey` whose
constructors are in bijection with the string keys the script can ever
build (`"overall_severity"`, `"confidence"`, `"<domain>_severity"`,
`"<domain>_confidence"`, `"duty_to_warn"`, `"mash_rating"`,
`"dash_rating"`, ...).  Numbers are rationals.
-/

namespace Suites

/-- Severity scale, `type Severity` in the source. -/
inductive Severity
  | none
  | mild
  | moderate
  | high
  | critical
deriving DecidableEq, Repr

/-- Imminence scale, `type Imminence` in the source. -/
inductive Imminence
  | not_applicable
  | chronic
  | subacute
  | urgent
  | emergency
deriving DecidableEq, Repr

/-- Risk domains, `type RiskDomain` in the source. -/
inductive RiskDomain
  | self
  | others
  | dependent_at_risk
  | victimisation
deriving DecidableEq, Repr

/-- Source line 248: `const severityLevels: Severity[] = ['none','mild','moderate','high','critical']`
(line 248 of the script). -/
def severityLevels : List Severity :=
  [Severity.none, Severity.mild, Severity.moderate, Severity.high, Severity.critical]

/-- Computes `severityLevels.indexOf s`.  Every `Severity` value occurs in the list,
so the JavaScript `-1` case never arises. -/
def sevIdx (s : Severity) : Nat :=
  severityLevels.indexOf s

/-- One entry of `TestCase.expected_domains`. -/
structure ExpectedDomain where
  domain : RiskDomain
  min_severity : Option Severity
  min_imminence : Option Imminence
  min_confidence : Option ℚ
deriving DecidableEq, Repr

/-- Shape of `TestCase.expected_legal_flags`: every field optional, ratings are the
raw strings of the source's union types. -/
structure ExpectedLegalFlags where
  duty_to_warn : Option Bool
  child_safeguarding_urgent : Option Bool
  vulnerable_adult_safeguarding : Option Bool
  mash_rating : Option String
  dash_rating : Option String
  animal_cruelty : Option Bool
deriving DecidableEq, Repr

/-- One conversation turn: role and content. -/
structure Turn where
  role : String
  content : String
deriving DecidableEq, Repr

/-- The `interface TestCase` of the source. -/
structure TestCase where
  case_id : String
  description : String
  conversation : List Turn
  expected_overall_severity : Severity
  acceptable_severities : Option (List Severity)
  expected_overall_imminence : Imminence
  acceptable_imminence : Option (List Imminence)
  expected_min_confidence : ℚ
  rationale : Option String
  expected_domains : Option (List ExpectedDomain)
  expected_legal_flags : Option ExpectedLegalFlags
deriving DecidableEq, Repr

/-- The `interface TestSuite` of the source. -/
structure TestSuite where
  test_set_id : String
  version : String
  description : String
  cases : List TestCase
deriving DecidableEq, Repr

/-- A boolean legal flag of the classifier payload, read as `.present`. -/
structure FlagPresence where
  present : Bool
deriving DecidableEq, Repr

/-- A rating-style legal flag of the classifier payload, read as `.level`. -/
structure RatingFlag where
  level : String
deriving DecidableEq, Repr

/-- The legal-flags object of the classifier payload; absent fields are
`Option.none` (JavaScript `undefined` under optional chaining). -/
structure ActualLegalFlags where
  duty_to_warn : Option FlagPresence
  child_safeguarding_urgent : Option FlagPresence
  vulnerable_adult_safeguarding : Option FlagPresence
  mash_rating : Option RatingFlag
  dash_rating : Option RatingFlag
  animal_cruelty : Option FlagPresence
deriving DecidableEq, Repr

/-- One per-domain assessment of the classifier payload. -/
structure ActualDomain where
  domain : RiskDomain
  severity : Severity
  imminence : Imminence
  confidence : ℚ
  risk_features : Option (List String)
  protective_factors : Option (List String)
deriving DecidableEq, Repr

/-- The `global` part of the classifier payload. -/
structure ApiGlobal where
  overall_severity : Severity
  overall_imminence : Imminence
  primary_concerns : Option (List String)
deriving DecidableEq, Repr

/-- The classifier payload as the script reads it (`result.global.…`,
`result.confidence`, `result.domains`, `result.legal_flags`). -/
structure ApiResult where
  global : ApiGlobal
  confidence : ℚ
  domains : List ActualDomain
  legal_flags : Option ActualLegalFlags
deriving DecidableEq, Repr

/-- Keys of the string-keyed check records the script builds.  The
constructors are in bijection with the possible key strings:
`domain_severity d` stands for the string `` `${d}_severity` `` and
`domain_confidence d` for `` `${d}_confidence` ``; the remaining
constructors stand for the literal key strings of the same name.  The
three flag keys the checker never writes
(`child_safeguarding_urgent`, `vulnerable_adult_safeguarding`,
`animal_cruelty`) are included so their absence is expressible. -/
inductive CheckKey
  | overall_severity
  | overall_imminence
  | confidence
  | domain_severity (d : RiskDomain)
  | domain_confidence (d : RiskDomain)
  | duty_to_warn
  | mash_rating
  | dash_rating
  | child_safeguarding_urgent
  | vulnerable_adult_safeguarding
  | animal_cruelty
deriving DecidableEq, Repr

/-- An insertion-ordered record of named boolean checks
(a JavaScript object used as `Record<string, boolean>`). -/
abbrev CheckRecord := List (CheckKey × Bool)

/-- Assignment `m[k] = v` on a JavaScript object: update the first
occurrence of the key in place (insertion position kept), else append. -/
def recInsert : CheckRecord → CheckKey → Bool → CheckRecord
  | [], k, v => [(k, v)]
  | p :: rest, k, v =>
      if p.1 = k then (k, v) :: rest else p :: recInsert rest k v

/-- Property read `m[k]` on a JavaScript object (first matching key). -/
def recGet : CheckRecord → CheckKey → Option Bool
  | [], _ => Option.none
  | p :: rest, k => if p.1 = k then some p.2 else recGet rest k

/-- Object spread `{...m1, ...m2}`: insert every entry of `m2` into `m1`
in order. -/
def recMerge (m1 m2 : CheckRecord) : CheckRecord :=
  m2.foldl (fun acc p => recInsert acc p.1 p.2) m1

/-- Reads `Object.values(m)` in insertion order. -/
def recValues (m : CheckRecord) : List Bool :=
  m.map Prod.snd

/-- Line 232: `testCase.acceptable_severities || [testCase.expected_overall_severity]`
(line 232; a present array is always truthy, including the empty one). -/
def acceptableSeverities (tc : TestCase) : List Severity :=
  tc.acceptable_severities.getD [tc.expected_overall_severity]

/-- Line 233: `testCase.acceptable_imminence || [testCase.expected_overall_imminence]`
(line 233). -/
def acceptableImminence (tc : TestCase) : List Imminence :=
  tc.acceptable_imminence.getD [tc.expected_overall_imminence]

/-- The three baseline checks of lines 235-239, in insertion order. -/
def baselineChecks (tc : TestCase) (r : ApiResult) : CheckRecord :=
  [(CheckKey.overall_severity, (acceptableSeverities tc).contains r.global.overall_severity),
   (CheckKey.overall_imminence, (acceptableImminence tc).contains r.global.overall_imminence),
   (CheckKey.confidence, decide (tc.expected_min_confidence ≤ r.confidence))]

/-- Body of the `expected_domains.forEach` loop (lines 244-257): find the
matching actual domain; if present, write the severity check when
`min_severity` is declared and the confidence check when `min_confidence`
is truthy (JavaScript `if (expectedDomain.min_confidence)`: `undefined`
and `0` are both falsy). -/
def domainStep (doms : List ActualDomain) (m : CheckRecord) (ed : ExpectedDomain) :
    CheckRecord :=
  match doms.find? (fun d => decide (d.domain = ed.domain)) with
  | Option.none => m
  | some ad =>
      let m1 :=
        match ed.min_severity with
        | some ms => recInsert m (CheckKey.domain_severity ed.domain)
            (decide (sevIdx ms ≤ sevIdx ad.severity))
        | Option.none => m
      match ed.min_confidence with
      | some mc =>
          if mc ≠ 0 then
            recInsert m1 (CheckKey.domain_confidence ed.domain)
              (decide (mc ≤ ad.confidence))
          else m1
      | Option.none => m1

/-- The `domainChecks` record of lines 242-258: fold of `domainStep` over the
declared expected domains (empty when none are declared). -/
def domainChecks (tc : TestCase) (r : ApiResult) : CheckRecord :=
  match tc.expected_domains with
  | Option.none => []
  | some eds => eds.foldl (domainStep r.domains) []

/-- Reads `result.legal_flags?.duty_to_warn?.present` as an optional boolean. -/
def dutyToWarnPresent (r : ApiResult) : Option Bool :=
  (r.legal_flags.bind (fun lf => lf.duty_to_warn)).map (fun f => f.present)

/-- Reads `result.legal_flags?.mash_rating?.level` as an optional string. -/
def mashRatingLevel (r : ApiResult) : Option String :=
  (r.legal_flags.bind (fun lf => lf.mash_rating)).map (fun f => f.level)

/-- Reads `result.legal_flags?.dash_rating?.level` as an optional string. -/
def dashRatingLevel (r : ApiResult) : Option String :=
  (r.legal_flags.bind (fun lf => lf.dash_rating)).map (fun f => f.level)

/-- The `legalFlagChecks` record of lines 261-272: only `duty_to_warn`,
`mash_rating` and `dash_rating` are ever written; a strict equality
`undefined === x` is false, hence the comparison with `some`. -/
def legalFlagChecks (tc : TestCase) (r : ApiResult) : CheckRecord :=
  match tc.expected_legal_flags with
  | Option.none => []
  | some lf =>
      let m1 : CheckRecord :=
        match lf.duty_to_warn with
        | some b => recInsert [] CheckKey.duty_to_warn
            (decide (dutyToWarnPresent r = some b))
        | Option.none => []
      let m2 : CheckRecord :=
        match lf.mash_rating with
        | some s => recInsert m1 CheckKey.mash_rating
            (decide (mashRatingLevel r = some s))
        | Option.none => m1
      match lf.dash_rating with
      | some s => recInsert m2 CheckKey.dash_rating
          (decide (dashRatingLevel r = some s))
      | Option.none => m2

/-- Line 274: `const allChecks = { ...checks, ...domainChecks, ...legalFlagChecks }`
(line 274). -/
def allChecks (tc : TestCase) (r : ApiResult) : CheckRecord :=
  recMerge (recMerge (baselineChecks tc r) (domainChecks tc r)) (legalFlagChecks tc r)

/-- Line 275: `Object.values(allChecks).every(v => v)`. -/
def allPassed (tc : TestCase) (r : ApiResult) : Bool :=
  (recValues (allChecks tc r)).all id

/-- Lines 276-278: `(passedChecks / totalChecks) * 100`. -/
def caseScore (tc : TestCase) (r : ApiResult) : ℚ :=
  (((recValues (allChecks tc r)).count true : ℚ) / ((allChecks tc r).length : ℚ)) * 100

/-- The `expected` echo stored in a result (ok branch copies every field,
the error branch only the three baseline expectations). -/
structure ExpectedEcho where
  overall_severity : Severity
  acceptable_severities : Option (List Severity)
  overall_imminence : Imminence
  acceptable_imminence : Option (List Imminence)
  min_confidence : ℚ
  rationale : Option String
  domains : Option (List ExpectedDomain)
  legal_flags : Option ExpectedLegalFlags
deriving DecidableEq, Repr

/-- The `actual` part of a stored result. -/
structure ActualEcho where
  overall_severity : Severity
  overall_imminence : Imminence
  confidence : ℚ
  domains : List ActualDomain
  legal_flags : Option ActualLegalFlags
  primary_concerns : Option (List String)
deriving DecidableEq, Repr

/-- The structured `checks` field of a stored result: the three baseline
booleans plus the domain and legal maps, each present only when
non-empty (lines 317-323). -/
structure ChecksField where
  overall_severity : Bool
  overall_imminence : Bool
  confidence : Bool
  domains : Option CheckRecord
  legal_flags : Option CheckRecord
deriving DecidableEq, Repr

/-- The `interface TestCaseResult` of the source (the `generated_at`-free
per-case record). -/
structure TestCaseResult where
  case_id : String
  description : String
  input : List Turn
  expected : ExpectedEcho
  actual : ActualEcho
  passed : Bool
  checks : ChecksField
  score : ℚ
  error : Option String
deriving DecidableEq, Repr

/-- The body of one task of lines 224-356: given the outcome of the
classifier call (success payload or captured error message), build the
`TestCaseResult`.  The `try` branch is lines 227-325, the `catch` branch
lines 327-355. -/
def runCase (tc : TestCase) (api : Except String ApiResult) : TestCaseResult :=
  match api with
  | Except.ok r =>
      { case_id := tc.case_id
        description := tc.description
        input := tc.conversation
        expected :=
          { overall_severity := tc.expected_overall_severity
            acceptable_severities := tc.acceptable_severities
            overall_imminence := tc.expected_overall_imminence
            acceptable_imminence := tc.acceptable_imminence
            min_confidence := tc.expected_min_confidence
            rationale := tc.rationale
            domains := tc.expected_domains
            legal_flags := tc.expected_legal_flags }
        actual :=
          { overall_severity := r.global.overall_severity
            overall_imminence := r.global.overall_imminence
            confidence := r.confidence
            domains := r.domains
            legal_flags := r.legal_flags
            primary_concerns := r.global.primary_concerns }
        passed := allPassed tc r
        checks :=
          { overall_severity := (acceptableSeverities tc).contains r.global.overall_severity
            overall_imminence := (acceptableImminence tc).contains r.global.overall_imminence
            confidence := decide (tc.expected_min_confidence ≤ r.confidence)
            domains :=
              if 0 < (domainChecks tc r).length then some (domainChecks tc r) else Option.none
            legal_flags :=
              if 0 < (legalFlagChecks tc r).length then some (legalFlagChecks tc r)
              else Option.none }
        score := caseScore tc r
        error := Option.none }
  | Except.error msg =>
      { case_id := tc.case_id
        description := tc.description
        input := tc.conversation
        expected :=
          { overall_severity := tc.expected_overall_severity
            acceptable_severities := Option.none
            overall_imminence := tc.expected_overall_imminence
            acceptable_imminence := Option.none
            min_confidence := tc.expected_min_confidence
            rationale := Option.none
            domains := Option.none
            legal_flags := Option.none }
        actual :=
          { overall_severity := Severity.none
            overall_imminence := Imminence.not_applicable
            confidence := 0
            domains := []
            legal_flags := Option.none
            primary_concerns := Option.none }
        passed := false
        checks :=
          { overall_severity := false
            overall_imminence := false
            confidence := false
            domains := Option.none
            legal_flags := Option.none }
        score := 0
        error := some msg }

/-- An HTTP response as `callNopeAPI` observes it. -/
structure HttpResponse where
  ok : Bool
  status : Nat
  bodyText : String
  payload : ApiResult
deriving DecidableEq, Repr

/-- The `callNopeAPI` function of lines 177-205: a non-ok response becomes the thrown
`API error (${status}): ${body}` message, an ok response yields the
parsed payload. -/
def callNopeAPI (resp : HttpResponse) : Except String ApiResult :=
  if resp.ok then Except.ok resp.payload
  else Except.error ("API error (" ++ toString resp.status ++ "): " ++ resp.bodyText)

/-- The `interface StaticSuiteResults` of the source (`generated_at`, a wall
clock read, is not modelled). -/
structure StaticSuiteResults where
  suite_id : String
  suite_version : String
  suite_description : String
  api_endpoint : String
  total_cases : Nat
  passed_cases : Nat
  failed_cases : Nat
  overall_score : ℚ
  cases : List TestCaseResult
deriving DecidableEq, Repr

/-- Line 369:
`results.reduce((sum, r) => sum + r.score, 0) / results.length`. -/
def overallScore (results : List TestCaseResult) : ℚ :=
  (results.foldl (fun sum r => sum + r.score) 0) / (results.length : ℚ)

/-- The `generateStaticResults` function of lines 207-406, with the classifier call
modelled as a function from case to outcome.  The per-case results are
collected in original case order, which is what `runWithConcurrency`
guarantees (see the runner model below). -/
def generateStaticResults (suite : TestSuite) (apiEndpoint : String)
    (api : TestCase → Except String ApiResult) : StaticSuiteResults :=
  let results := suite.cases.map (fun tc => runCase tc (api tc))
  { suite_id := suite.test_set_id
    suite_version := suite.version
    suite_description := suite.description
    api_endpoint := apiEndpoint
    total_cases := suite.cases.length
    passed_cases := results.countP (fun r => r.passed)
    failed_cases := results.countP (fun r => !r.passed)
    overall_score := overallScore results
    cases := results }

/-!
Model of `runWithConcurrency` (lines 143-172).  Each worker ("lane")
repeatedly claims the next unclaimed index from the shared cursor,
awaits the task, stores its value at the claimed index, and recurses;
`Math.min(maxConcurrency, tasks.length)` lanes are started.  Tasks are
modelled by the values they produce (the per-case tasks never throw:
the `catch` of lines 327-355 converts any failure into a result).  The
interleaving of claims and completions is an arbitrary sequence of
small steps; the results array is a partial map from indices to stored
values.
-/

/-- Runner state: the shared cursor, the fixed number of started lanes,
which task index each lane currently awaits (none = lane idle), and the
results array so far. -/
structure RunnerState (V : Type) where
  next : Nat
  numLanes : Nat
  lanes : Nat → Option Nat
  results : Nat → Option V

/-- Initial runner state: cursor at 0, `Math.min(maxConcurrency,
tasks.length)` idle lanes, empty results array (lines 147-148, 166-168). -/
def runnerInit (V : Type) (tasks : List V) (maxConcurrency : Nat) : RunnerState V :=
  { next := 0
    numLanes := Nat.min maxConcurrency tasks.length
    lanes := fun _ => Option.none
    results := fun _ => Option.none }

/-- One interleaving step of the runner: an idle lane claims the next
index (`const currentIndex = index++`, guarded by `index >= tasks.length`),
or a lane's awaited task completes and its value is stored at the claimed
index (`results[currentIndex] = result`). -/
inductive RunnerStep (V : Type) (tasks : List V) :
    RunnerState V → RunnerState V → Prop
  | claim (s : RunnerState V) (j : Nat) (hj : j < s.numLanes)
      (hidle : s.lanes j = Option.none) (hq : s.next < tasks.length) :
      RunnerStep V tasks s
        { next := s.next + 1
          numLanes := s.numLanes
          lanes := fun k => if k = j then some s.next else s.lanes k
          results := s.results }
  | finish (s : RunnerState V) (j : Nat) (i : Nat) (hj : j < s.numLanes)
      (hbusy : s.lanes j = some i) :
      RunnerStep V tasks s
        { next := s.next
          numLanes := s.numLanes
          lanes := fun k => if k = j then Option.none else s.lanes k
          results := fun k => if k = i then tasks[i]? else s.results k }

/-- Reflexive-transitive closure of runner steps. -/
inductive RunnerReach (V : Type) (tasks : List V) :
    RunnerState V → RunnerState V → Prop
  | refl (s : RunnerState V) : RunnerReach V tasks s s
  | tail (s t u : RunnerState V) (hst : RunnerReach V tasks s t)
      (htu : RunnerStep V tasks t u) : RunnerReach V tasks s u

/-- A terminal runner state: the queue is exhausted and every lane has
returned (so `Promise.all(workers)` has resolved). -/
def RunnerDone (V : Type) (tasks : List V) (s : RunnerState V) : Prop :=
  tasks.length ≤ s.next ∧ ∀ j, j < s.numLanes → s.lanes j = Option.none

/-- Number of tasks currently in flight: lanes awaiting a task. -/
def inFlight (V : Type) (s : RunnerState V) : Nat :=
  ((Finset.range s.numLanes).filter (fun j => (s.lanes j).isSome)).card

/-!
Auxiliary predicates and concrete sample data used by the verification
theorems and their witnesses.
-/

/-- Two expected-domain entries that agree on everything the checker
reads (`domain`, `min_severity`, `min_confidence`) and may differ in
`min_imminence`. -/
def ImmAgnostic (e1 e2 : ExpectedDomain) : Prop :=
  e1.domain = e2.domain ∧ e1.min_severity = e2.min_severity ∧
    e1.min_confidence = e2.min_confidence

/-- Pointwise `ImmAgnostic` on optional expected-domain lists. -/
def DomainsImmAgnostic : Option (List ExpectedDomain) → Option (List ExpectedDomain) → Prop
  | Option.none, Option.none => True
  | some l1, some l2 => List.Forall₂ ImmAgnostic l1 l2
  | _, _ => False

/-- Two test cases identical except possibly in the `min_imminence`
fields of their `expected_domains` entries. -/
def CaseImmAgnostic (t1 t2 : TestCase) : Prop :=
  t1.case_id = t2.case_id ∧ t1.description = t2.description ∧
  t1.conversation = t2.conversation ∧
  t1.expected_overall_severity = t2.expected_overall_severity ∧
  t1.acceptable_severities = t2.acceptable_severities ∧
  t1.expected_overall_imminence = t2.expected_overall_imminence ∧
  t1.acceptable_imminence = t2.acceptable_imminence ∧
  t1.expected_min_confidence = t2.expected_min_confidence ∧
  t1.rationale = t2.rationale ∧
  DomainsImmAgnostic t1.expected_domains t2.expected_domains ∧
  t1.expected_legal_flags = t2.expected_legal_flags

/-- A minimal concrete test case. -/
def sampleCase : TestCase :=
  { case_id := "case-001"
    description := "sample"
    conversation := []
    expected_overall_severity := Severity.moderate
    acceptable_severities := Option.none
    expected_overall_imminence := Imminence.chronic
    acceptable_imminence := Option.none
    expected_min_confidence := (6 : ℚ) / 10
    rationale := Option.none
    expected_domains := Option.none
    expected_legal_flags := Option.none }

/-- A concrete classifier payload with a given overall severity and no
domains or legal flags. -/
def plainResult (sev : Severity) : ApiResult :=
  { global :=
      { overall_severity := sev
        overall_imminence := Imminence.chronic
        primary_concerns := Option.none }
    confidence := 1
    domains := []
    legal_flags := Option.none }

/-- The case `sampleCase` widened to the acceptable-severity set {moderate, high}. -/
def widenedCase : TestCase :=
  { sampleCase with acceptable_severities := some [Severity.moderate, Severity.high] }

/-- A concrete actual domain entry: `self` at severity critical. -/
def selfCriticalDomain : ActualDomain :=
  { domain := RiskDomain.self
    severity := Severity.critical
    imminence := Imminence.urgent
    confidence := (9 : ℚ) / 10
    risk_features := Option.none
    protective_factors := Option.none }

/-- An expected domain entry with minimum severity `high` on `self`. -/
def selfMinHigh : ExpectedDomain :=
  { domain := RiskDomain.self
    min_severity := some Severity.high
    min_imminence := Option.none
    min_confidence := Option.none }

/-- Same as `selfMinHigh` with a `min_imminence` declaration added. -/
def selfMinHighUrgent : ExpectedDomain :=
  { selfMinHigh with min_imminence := some Imminence.urgent }

/-- An expected domain entry declaring `min_confidence` 0 on `self`. -/
def selfConfZero : ExpectedDomain :=
  { domain := RiskDomain.self
    min_severity := Option.none
    min_imminence := Option.none
    min_confidence := some 0 }

/-- A concrete payload carrying the `self` domain. -/
def selfDomainResult : ApiResult :=
  { global :=
      { overall_severity := Severity.moderate
        overall_imminence := Imminence.chronic
        primary_concerns := Option.none }
    confidence := 1
    domains := [selfCriticalDomain]
    legal_flags := Option.none }

/-- A case declaring only `animal_cruelty` among the legal flags. -/
def animalOnlyCase : TestCase :=
  { sampleCase with
    expected_legal_flags := some
      { duty_to_warn := Option.none
        child_safeguarding_urgent := Option.none
        vulnerable_adult_safeguarding := Option.none
        mash_rating := Option.none
        dash_rating := Option.none
        animal_cruelty := some true } }

/-- A payload whose legal flags include `animal_cruelty` present. -/
def animalFlagResult : ApiResult :=
  { global :=
      { overall_severity := Severity.moderate
        overall_imminence := Imminence.chronic
        primary_concerns := Option.none }
    confidence := 1
    domains := []
    legal_flags := some
      { duty_to_warn := Option.none
        child_safeguarding_urgent := Option.none
        vulnerable_adult_safeguarding := Option.none
        mash_rating := Option.none
        dash_rating := Option.none
        animal_cruelty := some { present := true } } }

/-- Legal-flag expectations declaring `duty_to_warn` and `mash_rating`. -/
def dutyMashFlags : ExpectedLegalFlags :=
  { duty_to_warn := some true
    child_safeguarding_urgent := Option.none
    vulnerable_adult_safeguarding := Option.none
    mash_rating := some "high"
    dash_rating := Option.none
    animal_cruelty := Option.none }

/-- A case declaring `duty_to_warn` and `mash_rating` expectations. -/
def dutyMashCase : TestCase :=
  { sampleCase with expected_legal_flags := some dutyMashFlags }

/-- A payload with `duty_to_warn` present and `mash_rating` level "high". -/
def dutyMashResult : ApiResult :=
  { global :=
      { overall_severity := Severity.moderate
        overall_imminence := Imminence.chronic
        primary_concerns := Option.none }
    confidence := 1
    domains := []
    legal_flags := some
      { duty_to_warn := some { present := true }
        child_safeguarding_urgent := Option.none
        vulnerable_adult_safeguarding := Option.none
        mash_rating := some { level := "high" }
        dash_rating := Option.none
        animal_cruelty := Option.none } }

/-- A synthetic per-case result used to exercise the aggregator. -/
def mkResult (sc : ℚ) (p : Bool) : TestCaseResult :=
  { case_id := "r"
    description := ""
    input := []
    expected :=
      { overall_severity := Severity.moderate
        acceptable_severities := Option.none
        overall_imminence := Imminence.chronic
        acceptable_imminence := Option.none
        min_confidence := 0
        rationale := Option.none
        domains := Option.none
        legal_flags := Option.none }
    actual :=
      { overall_severity := Severity.moderate
        overall_imminence := Imminence.chronic
        confidence := 1
        domains := []
        legal_flags := Option.none
        primary_concerns := Option.none }
    passed := p
    checks :=
      { overall_severity := true
        overall_imminence := true
        confidence := true
        domains := Option.none
        legal_flags := Option.none }
    score := sc
    error := Option.none }

/-- Replace a case's expected domains. -/
def withDomains (tc : TestCase) (eds : List ExpectedDomain) : TestCase :=
  { tc with expected_domains := some eds }

/-- Erase an expected domain's `min_confidence` declaration. -/
def dropMinConf (ed : ExpectedDomain) : ExpectedDomain :=
  { ed with min_confidence := Option.none }

/-- A concrete failing HTTP response. -/
def failedResponse : HttpResponse :=
  { ok := false
    status := 500
    bodyText := "oops"
    payload := plainResult Severity.none }

/-- Initial state of a one-lane run over the single task list `[5]`. -/
def wState0 : RunnerState Nat := runnerInit Nat [5] 1

/-- After lane 0 claims index 0. -/
def wState1 : RunnerState Nat :=
  { next := wState0.next + 1
    numLanes := wState0.numLanes
    lanes := fun k => if k = 0 then some wState0.next else wState0.lanes k
    results := wState0.results }

/-- After lane 0 stores the value of task 0. -/
def wState2 : RunnerState Nat :=
  { next := wState1.next
    numLanes := wState1.numLanes
    lanes := fun k => if k = 0 then Option.none else wState1.lanes k
    results := fun k => if k = 0 then [5][0]? else wState1.results k }

/-- Invariant carried by every reachable runner state. -/
structure RunnerInv (V : Type) (tasks : List V) (C : Nat) (s : RunnerState V) : Prop where
  lanesConst : s.numLanes = Nat.min C tasks.length
  nextLe : s.next ≤ tasks.length
  resHigh : ∀ i, s.next ≤ i → s.results i = Option.none
  laneClaimed : ∀ j i, s.lanes j = some i → i < s.next
  resVal : ∀ i, s.results i = Option.none ∨ s.results i = tasks[i]?
  covered : ∀ i, i < s.next →
    s.results i = tasks[i]? ∨ ∃ j, j < s.numLanes ∧ s.lanes j = some i

theorem runnerInv_init (V : Type) (tasks : List V) (C : Nat) :
    RunnerInv V tasks C (runnerInit V tasks C) := by
  constructor <;> simp [runnerInit]

theorem runnerInv_step (V : Type) (tasks : List V) (C : Nat)
    (s t : RunnerState V) (hstep : RunnerStep V tasks s t)
    (hinv : RunnerInv V tasks C s) : RunnerInv V tasks C t := by
  obtain ⟨hlanes, hnext, hhigh, hclaim, hval, hcov⟩ := hinv
  cases hstep with
  | claim j hj hidle hq =>
      refine ⟨hlanes, hq, ?_, ?_, hval, ?_⟩
      · intro i hi
        exact hhigh i (Nat.le_of_succ_le hi)
      · intro j2 i h2
        show i < s.next + 1
        by_cases hje : j2 = j
        · subst hje
          simp at h2
          omega
        · simp only [if_neg hje] at h2
          exact Nat.lt_succ_of_lt (hclaim j2 i h2)
      · intro i hi
        have hi2 : i < s.next + 1 := hi
        by_cases hie : i = s.next
        · subst hie
          exact Or.inr ⟨j, hj, by simp⟩
        · have hilt : i < s.next := by omega
          rcases hcov i hilt with hres | ⟨j2, hj2, hlane⟩
          · exact Or.inl hres
          · by_cases hje : j2 = j
            · subst hje
              rw [hidle] at hlane
              exact absurd hlane (by simp)
            · exact Or.inr ⟨j2, hj2, by simp [hje, hlane]⟩
  | finish j i hj hbusy =>
      have hilt : i < s.next := hclaim j i hbusy
      refine ⟨hlanes, hnext, ?_, ?_, ?_, ?_⟩
      · intro i2 hi2
        have hi3 : s.next ≤ i2 := hi2
        have hne : i2 ≠ i := by omega
        show (if i2 = i then tasks[i]? else s.results i2) = Option.none
        rw [if_neg hne]
        exact hhigh i2 hi3
      · intro j2 i2 h2
        show i2 < s.next
        by_cases hje : j2 = j
        · subst hje
          simp at h2
        · simp only [if_neg hje] at h2
          exact hclaim j2 i2 h2
      · intro i2
        show (if i2 = i then tasks[i]? else s.results i2) = Option.none ∨
          (if i2 = i then tasks[i]? else s.results i2) = tasks[i2]?
        by_cases hie : i2 = i
        · subst hie
          simp
        · rw [if_neg hie]
          exact hval i2
      · intro i2 hi2
        have hi3 : i2 < s.next := hi2
        by_cases hie : i2 = i
        · subst hie
          exact Or.inl (by simp)
        · rcases hcov i2 hi3 with hres | ⟨j2, hj2, hlane⟩
          · exact Or.inl (by simp [hie, hres])
          · by_cases hje : j2 = j
            · subst hje
              rw [hbusy] at hlane
              simp only [Option.some.injEq] at hlane
              exact absurd hlane.symm hie
            · exact Or.inr ⟨j2, hj2, by simp [hje, hlane]⟩

theorem runnerInv_reach (V : Type) (tasks : List V) (C : Nat)
    (s : RunnerState V)
    (hreach : RunnerReach V tasks (runnerInit V tasks C) s) :
    RunnerInv V tasks C s := by
  induction hreach with
  | refl => exact runnerInv_init V tasks C
  | tail t u hst htu ih => exact runnerInv_step V tasks C t u htu ih

/-! Helper lemmas about the check-record operations. -/

theorem recGet_recInsert_self (m : CheckRecord) (k : CheckKey) (v : Bool) :
    recGet (recInsert m k v) k = some v := by
  induction m with
  | nil => simp [recInsert, recGet]
  | cons p rest ih =>
      by_cases h : p.1 = k
      · simp [recInsert, recGet, h]
      · simp [recInsert, recGet, h, ih]

theorem recGet_recInsert_ne (m : CheckRecord) (k k2 : CheckKey) (v : Bool)
    (h : k2 ≠ k) : recGet (recInsert m k v) k2 = recGet m k2 := by
  induction m with
  | nil => simp [recInsert, recGet, Ne.symm h]
  | cons p rest ih =>
      by_cases hp : p.1 = k
      · subst hp
        simp [recInsert, recGet, Ne.symm h]
      · by_cases hp2 : p.1 = k2
        · simp [recInsert, recGet, hp, hp2, h]
        · simp [recInsert, recGet, hp, hp2, ih]

theorem length_recInsert (m : CheckRecord) (k : CheckKey) (v : Bool) :
    m.length ≤ (recInsert m k v).length := by
  induction m with
  | nil => simp [recInsert]
  | cons p rest ih =>
      by_cases h : p.1 = k
      · simp [recInsert, h]
      · simp only [recInsert, if_neg h, List.length_cons]
        omega

theorem length_recMerge (m1 m2 : CheckRecord) :
    m1.length ≤ (recMerge m1 m2).length := by
  unfold recMerge
  induction m2 generalizing m1 with
  | nil => simp
  | cons p rest ih =>
      simp only [List.foldl_cons]
      exact Nat.le_trans (length_recInsert m1 p.1 p.2) (ih (recInsert m1 p.1 p.2))

theorem allChecks_length_pos (tc : TestCase) (r : ApiResult) :
    0 < (allChecks tc r).length := by
  have h1 : (baselineChecks tc r).length = 3 := by simp [baselineChecks]
  have h2 := length_recMerge (baselineChecks tc r) (domainChecks tc r)
  have h3 := length_recMerge (recMerge (baselineChecks tc r) (domainChecks tc r))
    (legalFlagChecks tc r)
  unfold allChecks
  omega

theorem count_true_eq_length_iff (l : List Bool) :
    l.count true = l.length ↔ l.all id = true := by
  induction l with
  | nil => simp
  | cons b rest ih =>
      have hle := List.count_le_length true rest
      cases b
      · simp [List.count_cons]
        omega
      · simp [List.count_cons]
        simpa using ih

theorem overallScore_eq (rs : List TestCaseResult) :
    overallScore rs = (rs.map TestCaseResult.score).sum / ((rs.length : ℚ)) := by
  unfold overallScore
  congr 1
  have haux : ∀ (l : List TestCaseResult) (a : ℚ),
      l.foldl (fun sum r => sum + r.score) a = a + (l.map TestCaseResult.score).sum := by
    intro l
    induction l with
    | nil => intro a; simp
    | cons x xs ih =>
        intro a
        simp only [List.foldl_cons, List.map_cons, List.sum_cons, ih]
        ring
  rw [haux rs 0, zero_add]

/-- C2. For every `CaseResult` produced by the scoring step, the
score equals 100 iff `passed` is true, and any score strictly below 100
implies `passed` is false (`passed` is the conjunction of all evaluated
checks, the score the fraction of true checks times 100). -/
theorem score_pass_independence (tc : TestCase) (api : Except String ApiResult) :
    ((runCase tc api).score = 100 ↔ (runCase tc api).passed = true) ∧
    ((runCase tc api).score < 100 → (runCase tc api).passed = false) := by
  cases api with
  | error msg =>
      constructor
      · constructor
        · intro h
          exfalso
          norm_num [runCase] at h
        · intro h
          simp [runCase] at h
      · intro _
        simp [runCase]
  | ok r =>
      have hn := allChecks_length_pos tc r
      have hlen : (recValues (allChecks tc r)).length = (allChecks tc r).length := by
        simp [recValues]
      have hscore : (runCase tc (Except.ok r)).score =
          (((recValues (allChecks tc r)).count true : ℚ) /
            (((allChecks tc r).length : Nat) : ℚ)) * 100 := rfl
      have hpass : (runCase tc (Except.ok r)).passed =
          (recValues (allChecks tc r)).all id := rfl
      have hne : (((allChecks tc r).length : Nat) : ℚ) ≠ 0 :=
        Nat.cast_ne_zero.mpr hn.ne'
      have key : (runCase tc (Except.ok r)).score = 100 ↔
          (recValues (allChecks tc r)).count true = (allChecks tc r).length := by
        rw [hscore]
        constructor
        · intro h
          field_simp at h
          have hq : (((recValues (allChecks tc r)).count true : Nat) : ℚ) =
              (((allChecks tc r).length : Nat) : ℚ) := by linarith
          exact_mod_cast hq
        · intro h
          rw [h]
          field_simp
      have hiff : (runCase tc (Except.ok r)).score = 100 ↔
          (runCase tc (Except.ok r)).passed = true := by
        rw [key, hpass, ← hlen]
        exact count_true_eq_length_iff (recValues (allChecks tc r))
      refine ⟨hiff, fun hlt => ?_⟩
      by_contra hp
      rw [Bool.not_eq_false] at hp
      have h100 := hiff.mpr hp
      rw [h100] at hlt
      exact lt_irrefl _ hlt

theorem score_pass_independence_witness :
    (runCase sampleCase (Except.error "boom")).score < 100 ∧
    (runCase sampleCase (Except.error "boom")).passed = false :=
  ⟨by norm_num [runCase],
   (score_pass_independence sampleCase (Except.error "boom")).2 (by norm_num [runCase])⟩

/-- C3. A case whose classifier call fails yields the degraded
result: severity `none`, imminence `not_applicable`, confidence 0, no
domains, `passed = false`, the three baseline checks false, score 0, and
the captured error message; a non-ok response produces a non-empty
message, and no failure shrinks the suite's result list. -/
theorem classifier_failure_degradation (tc : TestCase) (msg : String) :
    ((runCase tc (Except.error msg)).actual.overall_severity = Severity.none ∧
     (runCase tc (Except.error msg)).actual.overall_imminence = Imminence.not_applicable ∧
     (runCase tc (Except.error msg)).actual.confidence = 0 ∧
     (runCase tc (Except.error msg)).actual.domains = [] ∧
     (runCase tc (Except.error msg)).passed = false ∧
     (runCase tc (Except.error msg)).checks.overall_severity = false ∧
     (runCase tc (Except.error msg)).checks.overall_imminence = false ∧
     (runCase tc (Except.error msg)).checks.confidence = false ∧
     (runCase tc (Except.error msg)).score = 0 ∧
     (runCase tc (Except.error msg)).error = some msg) ∧
    (∀ resp : HttpResponse, resp.ok = false →
      ∃ s, (runCase tc (callNopeAPI resp)).error = some s ∧ s ≠ "") ∧
    (∀ (suite : TestSuite) (endpoint : String)
        (api : TestCase → Except String ApiResult),
      (generateStaticResults suite endpoint api).cases.length = suite.cases.length) := by
  refine ⟨⟨rfl, rfl, rfl, rfl, rfl, rfl, rfl, rfl, rfl, rfl⟩, ?_, ?_⟩
  · intro resp hok
    refine ⟨"API error (" ++ toString resp.status ++ "): " ++ resp.bodyText, ?_, ?_⟩
    · simp [callNopeAPI, hok, runCase]
    · intro hcontra
      have hlen := congrArg String.length hcontra
      simp [String.length_append] at hlen
      exact absurd hlen.1.1.1 (by decide)
  · intro suite endpoint api
    simp [generateStaticResults]

theorem classifier_failure_degradation_witness :
    (runCase sampleCase (Except.error "API down")).passed = false ∧
    (runCase sampleCase (Except.error "API down")).score = 0 ∧
    (∃ s, (runCase sampleCase (callNopeAPI failedResponse)).error = some s ∧ s ≠ "") := by
  have h := classifier_failure_degradation sampleCase "API down"
  exact ⟨h.1.2.2.2.2.1, h.1.2.2.2.2.2.2.2.2.1, h.2.1 failedResponse rfl⟩

/-- C5. The suite's overall score is the arithmetic mean of the
per-case scores ([100, 0, 50] gives exactly 50), depends only on the
list of scores (not the pass/fail tally), and the report field is
exactly this mean of its cases. -/
theorem aggregate_score_is_mean :
    overallScore [mkResult 100 true, mkResult 0 false, mkResult 50 false] = 50 ∧
    (∀ rs1 rs2 : List TestCaseResult,
      rs1.map TestCaseResult.score = rs2.map TestCaseResult.score →
      overallScore rs1 = overallScore rs2) ∧
    (∀ (suite : TestSuite) (endpoint : String)
        (api : TestCase → Except String ApiResult),
      (generateStaticResults suite endpoint api).overall_score =
        overallScore (generateStaticResults suite endpoint api).cases) := by
  refine ⟨?_, ?_, ?_⟩
  · norm_num [overallScore, mkResult]
  · intro rs1 rs2 h
    have hl : rs1.length = rs2.length := by
      have := congrArg List.length h
      simpa using this
    rw [overallScore_eq, overallScore_eq, h, hl]
  · intro suite endpoint api
    rfl

theorem aggregate_score_is_mean_witness :
    overallScore [mkResult 100 true] = overallScore [mkResult 100 false] :=
  aggregate_score_is_mean.2.1 [mkResult 100 true] [mkResult 100 false] (by simp [mkResult])

/-- C6. The overall severity check passes iff the actual overall
severity belongs to the acceptable-severity set, which defaults to the
singleton baseline when no widened set is supplied; the imminence check
follows the identical rule. -/
theorem severity_check_set_membership (tc : TestCase) (r : ApiResult) :
    ((runCase tc (Except.ok r)).checks.overall_severity = true ↔
      r.global.overall_severity ∈ acceptableSeverities tc) ∧
    ((runCase tc (Except.ok r)).checks.overall_imminence = true ↔
      r.global.overall_imminence ∈ acceptableImminence tc) ∧
    (tc.acceptable_severities = Option.none →
      acceptableSeverities tc = [tc.expected_overall_severity]) ∧
    (tc.acceptable_imminence = Option.none →
      acceptableImminence tc = [tc.expected_overall_imminence]) := by
  refine ⟨?_, ?_, ?_, ?_⟩
  · show (acceptableSeverities tc).contains r.global.overall_severity = true ↔ _
    simp [List.contains]
  · show (acceptableImminence tc).contains r.global.overall_imminence = true ↔ _
    simp [List.contains]
  · intro h
    simp [acceptableSeverities, h]
  · intro h
    simp [acceptableImminence, h]

theorem severity_check_set_membership_witness :
    (runCase widenedCase (Except.ok (plainResult Severity.high))).checks.overall_severity
      = true ∧
    (runCase widenedCase (Except.ok (plainResult Severity.critical))).checks.overall_severity
      = false ∧
    sampleCase.acceptable_severities = Option.none ∧
    acceptableSeverities sampleCase = [Severity.moderate] := by
  refine ⟨?_, by decide, rfl, ?_⟩
  · exact (severity_check_set_membership widenedCase (plainResult Severity.high)).1.mpr
      (by decide)
  · exact (severity_check_set_membership sampleCase (plainResult Severity.high)).2.2.1 rfl

/-- C7. An expected domain without a matching actual domain
contributes no check; with a match and a declared minimum severity, the
check passes iff the actual severity's index on the five-level scale is
at least the declared minimum's index (high: critical and high pass,
moderate fails). -/
theorem domain_severity_threshold (doms : List ActualDomain) (m : CheckRecord)
    (ed : ExpectedDomain) :
    (doms.find? (fun d => decide (d.domain = ed.domain)) = Option.none →
      domainStep doms m ed = m) ∧
    (∀ ad ms, doms.find? (fun d => decide (d.domain = ed.domain)) = some ad →
      ed.min_severity = some ms →
      recGet (domainStep doms m ed) (CheckKey.domain_severity ed.domain) =
        some (decide (sevIdx ms ≤ sevIdx ad.severity))) ∧
    (decide (sevIdx Severity.high ≤ sevIdx Severity.critical) = true ∧
     decide (sevIdx Severity.high ≤ sevIdx Severity.high) = true ∧
     decide (sevIdx Severity.high ≤ sevIdx Severity.moderate) = false) := by
  refine ⟨?_, ?_, by decide⟩
  · intro hnone
    unfold domainStep
    rw [hnone]
  · intro ad ms hfind hms
    unfold domainStep
    rw [hfind, hms]
    cases hmc : ed.min_confidence with
    | none =>
        simp only
        exact recGet_recInsert_self m (CheckKey.domain_severity ed.domain)
          (decide (sevIdx ms ≤ sevIdx ad.severity))
    | some mc =>
        simp only
        by_cases h0 : mc ≠ 0
        · rw [if_pos h0]
          rw [recGet_recInsert_ne _ _ _ _ (by simp)]
          exact recGet_recInsert_self m (CheckKey.domain_severity ed.domain)
            (decide (sevIdx ms ≤ sevIdx ad.severity))
        · rw [if_neg h0]
          exact recGet_recInsert_self m (CheckKey.domain_severity ed.domain)
            (decide (sevIdx ms ≤ sevIdx ad.severity))

theorem domain_severity_threshold_witness :
    recGet (domainStep [selfCriticalDomain] [] selfMinHigh)
      (CheckKey.domain_severity RiskDomain.self) = some true := by
  have h := (domain_severity_threshold [selfCriticalDomain] [] selfMinHigh).2.1
    selfCriticalDomain Severity.high rfl rfl
  rw [show selfMinHigh.domain = RiskDomain.self from rfl] at h
  rw [h]
  decide

theorem domainStep_immAgnostic (e1 e2 : ExpectedDomain) (h : ImmAgnostic e1 e2)
    (doms : List ActualDomain) (m : CheckRecord) :
    domainStep doms m e1 = domainStep doms m e2 := by
  obtain ⟨hd, hs, hc⟩ := h
  cases e1
  cases e2
  simp only at hd hs hc
  subst hd
  subst hs
  subst hc
  rfl

theorem foldl_domainStep_immAgnostic (doms : List ActualDomain)
    (l1 l2 : List ExpectedDomain) (h : List.Forall₂ ImmAgnostic l1 l2)
    (m : CheckRecord) :
    l1.foldl (domainStep doms) m = l2.foldl (domainStep doms) m := by
  induction h generalizing m with
  | nil => rfl
  | cons hab hrest ih =>
      simp only [List.foldl_cons]
      rw [domainStep_immAgnostic _ _ hab doms m]
      exact ih _

theorem domainChecks_immAgnostic (t1 t2 : TestCase) (r : ApiResult)
    (h : DomainsImmAgnostic t1.expected_domains t2.expected_domains) :
    domainChecks t1 r = domainChecks t2 r := by
  unfold domainChecks
  cases h1 : t1.expected_domains with
  | none =>
      cases h2 : t2.expected_domains with
      | none => rfl
      | some l2 =>
          rw [h1, h2] at h
          exact absurd h (by simp [DomainsImmAgnostic])
  | some l1 =>
      cases h2 : t2.expected_domains with
      | none =>
          rw [h1, h2] at h
          exact absurd h (by simp [DomainsImmAgnostic])
      | some l2 =>
          rw [h1, h2] at h
          exact foldl_domainStep_immAgnostic r.domains l1 l2 h []

/-- C9. The `min_imminence` field of an expected domain never
influences the output: two cases identical except for those fields
produce the same checks, the same pass flag, and the same score on the
same actual outcome. -/
theorem min_imminence_never_used (t1 t2 : TestCase) (api : Except String ApiResult)
    (h : CaseImmAgnostic t1 t2) :
    (runCase t1 api).checks = (runCase t2 api).checks ∧
    (runCase t1 api).passed = (runCase t2 api).passed ∧
    (runCase t1 api).score = (runCase t2 api).score := by
  obtain ⟨h1, h2, h3, h4, h5, h6, h7, h8, h9, h10, h11⟩ := h
  cases api with
  | error msg => exact ⟨rfl, rfl, rfl⟩
  | ok r =>
      have hdom : domainChecks t1 r = domainChecks t2 r :=
        domainChecks_immAgnostic t1 t2 r h10
      have haS : acceptableSeverities t1 = acceptableSeverities t2 := by
        unfold acceptableSeverities
        rw [h4, h5]
      have haI : acceptableImminence t1 = acceptableImminence t2 := by
        unfold acceptableImminence
        rw [h6, h7]
      have hbase : baselineChecks t1 r = baselineChecks t2 r := by
        unfold baselineChecks
        rw [haS, haI, h8]
      have hlegal : legalFlagChecks t1 r = legalFlagChecks t2 r := by
        unfold legalFlagChecks
        rw [h11]
      have hall : allChecks t1 r = allChecks t2 r := by
        unfold allChecks
        rw [hbase, hdom, hlegal]
      refine ⟨?_, ?_, ?_⟩
      · show ChecksField.mk _ _ _ _ _ = ChecksField.mk _ _ _ _ _
        rw [haS, haI, h8, hdom, hlegal]
      · show allPassed t1 r = allPassed t2 r
        unfold allPassed
        rw [hall]
      · show caseScore t1 r = caseScore t2 r
        unfold caseScore
        rw [hall]

theorem min_imminence_never_used_witness :
    (runCase (withDomains sampleCase [selfMinHighUrgent])
        (Except.ok selfDomainResult)).score =
      (runCase (withDomains sampleCase [selfMinHigh])
        (Except.ok selfDomainResult)).score := by
  have hfa : List.Forall₂ ImmAgnostic [selfMinHighUrgent] [selfMinHigh] :=
    List.Forall₂.cons ⟨rfl, rfl, rfl⟩ List.Forall₂.nil
  exact (min_imminence_never_used (withDomains sampleCase [selfMinHighUrgent])
    (withDomains sampleCase [selfMinHigh]) (Except.ok selfDomainResult)
    ⟨rfl, rfl, rfl, rfl, rfl, rfl, rfl, rfl, rfl, hfa, rfl⟩).2.2

/-- C10. An expected domain declaring minimum confidence 0 is
treated exactly as if the declaration were absent (the guard tests
JavaScript truthiness), so it contributes nothing to the check map, the
pass flag, or the score. -/
theorem min_confidence_zero_ignored (tc : TestCase) (r : ApiResult)
    (pre post : List ExpectedDomain) (ed : ExpectedDomain)
    (hd : tc.expected_domains = some (pre ++ ed :: post))
    (h0 : ed.min_confidence = some 0) :
    (∀ (doms : List ActualDomain) (m : CheckRecord),
      domainStep doms m ed = domainStep doms m (dropMinConf ed)) ∧
    ((runCase tc (Except.ok r)).checks =
      (runCase (withDomains tc (pre ++ dropMinConf ed :: post)) (Except.ok r)).checks ∧
     (runCase tc (Except.ok r)).passed =
      (runCase (withDomains tc (pre ++ dropMinConf ed :: post)) (Except.ok r)).passed ∧
     (runCase tc (Except.ok r)).score =
      (runCase (withDomains tc (pre ++ dropMinConf ed :: post)) (Except.ok r)).score) := by
  have hstep : ∀ (doms : List ActualDomain) (m : CheckRecord),
      domainStep doms m ed = domainStep doms m (dropMinConf ed) := by
    intro doms m
    cases ed
    simp only at h0
    subst h0
    rfl
  refine ⟨hstep, ?_⟩
  have hdom : domainChecks tc r =
      domainChecks (withDomains tc (pre ++ dropMinConf ed :: post)) r := by
    unfold domainChecks
    rw [hd]
    show (pre ++ ed :: post).foldl (domainStep r.domains) [] =
      (pre ++ dropMinConf ed :: post).foldl (domainStep r.domains) []
    rw [List.foldl_append, List.foldl_append]
    simp only [List.foldl_cons]
    rw [hstep r.domains (pre.foldl (domainStep r.domains) [])]
  have hall : allChecks tc r =
      allChecks (withDomains tc (pre ++ dropMinConf ed :: post)) r := by
    unfold allChecks
    rw [hdom]
    rfl
  refine ⟨?_, ?_, ?_⟩
  · show ChecksField.mk _ _ _ _ _ = ChecksField.mk _ _ _ _ _
    rw [hdom]
    rfl
  · show allPassed tc r = allPassed _ r
    unfold allPassed
    rw [hall]
  · show caseScore tc r = caseScore _ r
    unfold caseScore
    rw [hall]

theorem min_confidence_zero_ignored_witness :
    (runCase (withDomains sampleCase [selfConfZero]) (Except.ok selfDomainResult)).score =
      (runCase (withDomains (withDomains sampleCase [selfConfZero])
        [dropMinConf selfConfZero]) (Except.ok selfDomainResult)).score :=
  (min_confidence_zero_ignored (withDomains sampleCase [selfConfZero])
    selfDomainResult [] [] selfConfZero rfl rfl).2.2.2

/-- C1 counterexample. The claim that every declared legal flag
produces a named check is false: `animalOnlyCase` declares
`animal_cruelty = true` and the payload even carries the flag, yet the
produced result has no legal-flag checks at all. -/
theorem legal_flag_all_checked_cex :
    (∃ lf, animalOnlyCase.expected_legal_flags = some lf ∧
      lf.animal_cruelty = some true) ∧
    (runCase animalOnlyCase (Except.ok animalFlagResult)).checks.legal_flags
      = Option.none ∧
    recGet (legalFlagChecks animalOnlyCase animalFlagResult) CheckKey.animal_cruelty
      = Option.none := by
  exact ⟨⟨_, rfl, rfl⟩, rfl, rfl⟩

/-- C1 amended. Of the declared legal-flag expectations only
`duty_to_warn` (compared via `.present`), `mash_rating` and
`dash_rating` (compared via `.level`) produce named checks;
declarations of `child_safeguarding_urgent`,
`vulnerable_adult_safeguarding` and `animal_cruelty` never produce a
check. -/
theorem legal_flag_checks_behaviour (tc : TestCase) (r : ApiResult)
    (lf : ExpectedLegalFlags) (h : tc.expected_legal_flags = some lf) :
    (∀ b, lf.duty_to_warn = some b →
      recGet (legalFlagChecks tc r) CheckKey.duty_to_warn =
        some (decide (dutyToWarnPresent r = some b))) ∧
    (∀ s, lf.mash_rating = some s →
      recGet (legalFlagChecks tc r) CheckKey.mash_rating =
        some (decide (mashRatingLevel r = some s))) ∧
    (∀ s, lf.dash_rating = some s →
      recGet (legalFlagChecks tc r) CheckKey.dash_rating =
        some (decide (dashRatingLevel r = some s))) ∧
    recGet (legalFlagChecks tc r) CheckKey.child_safeguarding_urgent = Option.none ∧
    recGet (legalFlagChecks tc r) CheckKey.vulnerable_adult_safeguarding = Option.none ∧
    recGet (legalFlagChecks tc r) CheckKey.animal_cruelty = Option.none := by
  obtain ⟨od, oc, ov, om, odash, oa⟩ := lf
  rcases od with _ | bd <;> rcases om with _ | sm <;> rcases odash with _ | sd <;>
    simp [legalFlagChecks, h, recInsert, recGet]

theorem legal_flag_checks_behaviour_witness :
    recGet (legalFlagChecks dutyMashCase dutyMashResult) CheckKey.duty_to_warn
      = some true ∧
    recGet (legalFlagChecks dutyMashCase dutyMashResult) CheckKey.mash_rating
      = some true ∧
    recGet (legalFlagChecks dutyMashCase dutyMashResult) CheckKey.animal_cruelty
      = Option.none := by
  have h := legal_flag_checks_behaviour dutyMashCase dutyMashResult dutyMashFlags rfl
  refine ⟨?_, ?_, h.2.2.2.2.2⟩
  · rw [h.1 true rfl]
    rfl
  · rw [h.2.1 "high" rfl]
    rfl

/-- C4. In every completed run of the concurrency-bounded runner,
the result array has exactly the submitted length and slot `i` holds the
value produced by task `i`, for any interleaving of claims and
completions; hence the report's cases stay in original case order. -/
theorem runner_index_fidelity (V : Type) (tasks : List V) (C : Nat)
    (s : RunnerState V)
    (hreach : RunnerReach V tasks (runnerInit V tasks C) s)
    (hdone : RunnerDone V tasks s) :
    (∀ i, i < tasks.length → s.results i = tasks[i]?) ∧
    (∀ i, tasks.length ≤ i → s.results i = Option.none) ∧
    (∀ (suite : TestSuite) (endpoint : String)
        (api : TestCase → Except String ApiResult) (i : Nat),
      (generateStaticResults suite endpoint api).cases[i]? =
        (suite.cases[i]?).map (fun tc => runCase tc (api tc))) := by
  obtain ⟨hlanes, hnextLe, hhigh, hclaim, hval, hcov⟩ := runnerInv_reach V tasks C s hreach
  obtain ⟨hqdone, hidle⟩ := hdone
  refine ⟨?_, ?_, ?_⟩
  · intro i hi
    have hlt : i < s.next := by omega
    rcases hcov i hlt with hres | ⟨j, hj, hlane⟩
    · exact hres
    · rw [hidle j hj] at hlane
      exact absurd hlane (by simp)
  · intro i hi
    exact hhigh i (by omega)
  · intro suite endpoint api i
    simp [generateStaticResults]

theorem wStep01 : RunnerStep Nat [5] wState0 wState1 :=
  RunnerStep.claim wState0 0 (by decide) rfl (by decide)

theorem wStep12 : RunnerStep Nat [5] wState1 wState2 :=
  RunnerStep.finish wState1 0 0 (by decide) rfl

theorem wReach02 : RunnerReach Nat [5] wState0 wState2 :=
  RunnerReach.tail wState0 wState1 wState2
    (RunnerReach.tail wState0 wState0 wState1 (RunnerReach.refl wState0) wStep01)
    wStep12

theorem wDone2 : RunnerDone Nat [5] wState2 := by
  refine ⟨by decide, ?_⟩
  intro j hj
  have h1 : wState2.numLanes = 1 := by decide
  have hj0 : j = 0 := by omega
  subst hj0
  rfl

theorem runner_index_fidelity_witness :
    wState2.results 0 = some 5 ∧ wState2.results 1 = Option.none := by
  have h := runner_index_fidelity Nat [5] 1 wState2 wReach02 wDone2
  refine ⟨?_, h.2.1 1 (by decide)⟩
  rw [h.1 0 (by decide)]
  rfl

/-- C8. At no instant of a run are more than `C` tasks in flight
when the task list has at least `C` entries, and the runner starts
exactly `min C N` lanes, each holding at most one claimed index at a
time. -/
theorem runner_concurrency_ceiling (V : Type) (tasks : List V) (C : Nat)
    (s : RunnerState V)
    (hreach : RunnerReach V tasks (runnerInit V tasks C) s)
    (hNC : C ≤ tasks.length) :
    inFlight V s ≤ C ∧ s.numLanes = Nat.min C tasks.length := by
  have hinv := runnerInv_reach V tasks C s hreach
  refine ⟨?_, hinv.lanesConst⟩
  have hcard : inFlight V s ≤ s.numLanes := by
    unfold inFlight
    calc ((Finset.range s.numLanes).filter (fun j => (s.lanes j).isSome)).card
        ≤ (Finset.range s.numLanes).card := Finset.card_filter_le _ _
      _ = s.numLanes := Finset.card_range _
  rw [hinv.lanesConst] at hcard
  exact hcard.trans (Nat.min_le_left C tasks.length)

theorem runner_concurrency_ceiling_witness :
    inFlight Nat wState1 ≤ 1 ∧ wState1.numLanes = Nat.min 1 ([5] : List Nat).length :=
  runner_concurrency_ceiling Nat [5] 1 wState1
    (RunnerReach.tail wState0 wState0 wState1 (RunnerReach.refl wState0) wStep01)
    (by decide)

end Suites
